import Mathlib

/-!
Shallow embedding of the turkserver-meteor instance lifecycle and connection
handling code (src/lib/instance.jsx and the connection/assigner file), together
with theorems checking the specification's claims about it.

Conventions of the embedding:
* Mongo collections are association lists kept in storage (insertion) order;
  an unsorted query returns documents in that stored order.
* Timestamps (`new Date`) are explicit `Nat` parameters named `now`.
* A thrown JavaScript error is an error value carrying the message string;
  functions that can throw after mutating state return the post-state at the
  moment of the throw alongside the error.
* The in-memory `_instances` map of instance.jsx maps group ids to object
  identities, modelled as allocation tokens (`Nat`).
-/

namespace TurkServer

/-- Generic association-list lookup: first binding of the key wins, matching a
Mongo `findOne` by `_id` over a collection in storage order. -/
def lookupAssoc {α : Type} : List (String × α) → String → Option α
  | [], _ => none
  | p :: rest, key => if p.1 = key then some p.2 else lookupAssoc rest key

/-- Association-list upsert used for keyed single-document `$set` updates:
replaces the first binding in place, or appends when the key is absent.  This is
also exactly how assignment to a JavaScript object property behaves, so it
doubles as the semantics of `target[key] = value` during `_.extend`. -/
def setAssoc {α : Type} : List (String × α) → String → α → List (String × α)
  | [], key, v => [(key, v)]
  | p :: rest, key, v => if p.1 = key then (key, v) :: rest else p :: setAssoc rest key v

/-- Removal of every binding of a key, modelling `Partitioner.clearUserGroup`. -/
def removeAssoc {α : Type} : List (String × α) → String → List (String × α)
  | [], _ => []
  | p :: rest, key => if p.1 = key then removeAssoc rest key else p :: removeAssoc rest key

/-! ### The in-memory instance registry and `Instance.getInstance`

`Instance.getInstance` consults the module-level `_instances` map, then the
`Experiments` collection, then re-reads the map behind the comment "A fiber may
have created this at the same time; if so use that one".  The re-read is the
line `if( inst = _instances.get(groupId) && inst != null ) return inst;`, whose
JavaScript parse is `inst = (_instances.get(groupId) && (inst != null))` because
`&&` binds tighter than `=`; `inst` is still `undefined` at that point, so the
right conjunct is the constant `false` and the assigned value is never truthy.
The embedding keeps that expression value-for-value. -/

/-- A JavaScript value as it flows through the double-checked guard of
`Instance.getInstance`: `undefined`, the boolean `false`, or an instance object
identified by its allocation token. -/
inductive JsVal where
  | undef : JsVal
  | fals : JsVal
  | obj : Nat → JsVal
deriving DecidableEq, Repr

/-- JavaScript truthiness for the values above: only an object is truthy. -/
def truthy : JsVal → Bool
  | .obj _ => true
  | _ => false

/-- JavaScript `a && b`: returns `a` when `a` is falsy, else `b`. -/
def jsAnd (a b : JsVal) : JsVal := if truthy a then b else a

/-- The value `_instances.get(groupId)` produces: `undefined` on a miss, the
stored object on a hit. -/
def toJsVal : Option Nat → JsVal
  | none => .undef
  | some o => .obj o

/-- Token carried by an object value (0 for non-objects; only applied to values
already known to be truthy). -/
def objToken : JsVal → Nat
  | .obj o => o
  | _ => 0

/-- Process-local state of instance.jsx: the `_instances` registry mapping each
group id to the token of its Instance object, plus the next fresh token. -/
structure InstState where
  reg : List (String × Nat) := []
  fresh : Nat := 0
deriving DecidableEq, Repr

/-- Embedding of the `Instance` constructor: throws when the registry already
holds an entry for the group id, otherwise yields a fresh object. -/
def instanceNew (s : InstState) (gid : String) : Except String (Nat × InstState) :=
  match lookupAssoc s.reg gid with
  | some _ => .error "Instance already exists; use getInstance"
  | none => .ok (s.fresh, { s with fresh := s.fresh + 1 })

/-- Embedding of `Instance.getInstance(groupId)`.  `exps` is the set of group
ids whose backing record exists in the `Experiments` collection.  `raceWrite`
models the interleaving hazard: the `Experiments.findOne` store read is a fiber
yield point, and `raceWrite = some tok` means a concurrent fiber created and
registered the Instance for this group id during that yield.  The
`secondCheck` value is the defective double-checked read described above. -/
def getInstance (s : InstState) (exps : List String) (gid : String)
    (raceWrite : Option Nat) : Except String (Nat × InstState) :=
  match lookupAssoc s.reg gid with
  | some inst => .ok (inst, s)
  | none =>
    if gid ∈ exps then
      let s1 : InstState :=
        match raceWrite with
        | some o => { s with reg := (gid, o) :: s.reg }
        | none => s
      let secondCheck : JsVal := jsAnd (toJsVal (lookupAssoc s1.reg gid)) JsVal.fals
      if truthy secondCheck then
        .ok (objToken secondCheck, s1)
      else
        match instanceNew s1 gid with
        | .error e => .error e
        | .ok (tok, s2) => .ok (tok, { s2 with reg := (gid, tok) :: s2.reg })
    else
      .error ("Instance does not exist: " ++ gid)

/-! ### Store records and the world state -/

/-- A document of the `Experiments` collection (each document is one instance's
backing group record). -/
structure ExpRec where
  users : List String := []
  startTime : Option Nat := none
  endTime : Option Nat := none
  treatments : List String := []
  assignable : Bool := false
deriving DecidableEq, Repr

/-- A document of the `Assignments` collection.  `instances` is the ordered
history of joined instance ids and `left` the ordered history of recorded
departures. -/
structure AsstRec where
  asstId : String := ""
  hitId : String := ""
  assignmentId : String := ""
  workerId : String := ""
  userId : String := ""
  status : String := ""
  instances : List String := []
  left : List String := []
deriving DecidableEq, Repr

/-- A structured log event as emitted through `TurkServer.log` inside a bound
group scope. -/
structure LogEntry where
  groupId : String
  meta : String
  timestamp : Nat
deriving DecidableEq, Repr

/-- A document of the `Batches` collection (the fields the connection handler
and the legacy assigners read). -/
structure BatchRec where
  active : Bool := false
  grouping : String := ""
  lobby : Bool := false
  groupVal : Nat := 0
  experimentIds : List String := []
deriving DecidableEq, Repr

/-- A named Treatment document: a name and a parameter object. -/
structure Treatment where
  name : String
  params : List (String × Nat) := []
deriving DecidableEq, Repr

/-- The connection document handed to `TurkServer.handleConnection`. -/
structure ConnDoc where
  userId : String := ""
  hitId : String := ""
  assignmentId : String := ""
  workerId : String := ""
deriving DecidableEq, Repr

/-- The shared store state the embedded operations act on.  `userGroups` is the
`Grouping` collection maintained by the Partitioner (`setUserGroup` /
`clearUserGroup` / `getUserGroup`), `userStates` the per-user
`turkserver.state` field of `Meteor.users`, and `lobby` the `LobbyStatus`
membership in insertion order. -/
structure World where
  experiments : List (String × ExpRec) := []
  assignments : List AsstRec := []
  userGroups : List (String × String) := []
  userStates : List (String × String) := []
  treatmentsCol : List Treatment := []
  batches : List BatchRec := []
  lobby : List String := []
  logs : List LogEntry := []
deriving DecidableEq, Repr

/-! ### Instance membership operations -/

/-- The `$addToSet: {users: uid}` update on the experiment record keyed by
`gid`: set semantics, appending at the end on first insertion. -/
def addToSetUsers (m : List (String × ExpRec)) (gid uid : String) :
    List (String × ExpRec) :=
  m.map (fun p =>
    if p.1 = gid then
      (p.1, { p.2 with users := if uid ∈ p.2.users then p.2.users else p.2.users ++ [uid] })
    else p)

/-- The conditional update `Experiments.update({_id: gid, startTime: null},
{$set: {startTime: now}})`: only a record whose `startTime` is unset is
touched. -/
def setStartTimeIfNull (m : List (String × ExpRec)) (gid : String) (now : Nat) :
    List (String × ExpRec) :=
  m.map (fun p =>
    if p.1 = gid ∧ p.2.startTime = none then (p.1, { p.2 with startTime := some now })
    else p)

/-- The `$set: {endTime: now}` update on the experiment record keyed by
`gid`. -/
def setEndTime (m : List (String × ExpRec)) (gid : String) (now : Nat) :
    List (String × ExpRec) :=
  m.map (fun p => if p.1 = gid then (p.1, { p.2 with endTime := some now }) else p)

/-- Modelled from the spec: `Assignment#_joinInstance` is not under src/ (only
its call site in `Instance.addAssignment` is); per the spec it "appends this
Instance to the Assignment's instance history". -/
def joinInstance : List AsstRec → String → String → List AsstRec
  | [], _, _ => []
  | a :: rest, asstId, gid =>
    if a.asstId = asstId then { a with instances := a.instances ++ [gid] } :: rest
    else a :: joinInstance rest asstId gid

/-- Modelled from the spec: `Assignment#_leaveInstance` is not under src/; per
the spec it "records the leave" on the assignment record (first record of the
user). -/
def leaveInstance : List AsstRec → String → String → List AsstRec
  | [], _, _ => []
  | a :: rest, uid, gid =>
    if a.userId = uid then { a with left := a.left ++ [gid] } :: rest
    else a :: leaveInstance rest uid gid

/-- Embedding of `Instance.isEnded`: the record exists and its `endTime` is
set (a missing record is falsy, as `instance && instance.endTime != null`
evaluates to `undefined`). -/
def isEnded (w : World) (gid : String) : Bool :=
  match lookupAssoc w.experiments gid with
  | some rec => rec.endTime.isSome
  | none => false

/-- Embedding of `Instance.addAssignment(asst)` on the instance `gid`, where
the assignment object carries `asstId` and `userId` and `now` is the `new
Date` taken for the conditional start-time update.  Returns the error message
of the throw (if any) together with the post-state; the ended check runs
before any mutation, and otherwise the group mapping, membership `$addToSet`,
worker state, conditional start time, and assignment history updates run in
source order. -/
def addAssignment (w : World) (gid asstId uid : String) (now : Nat) :
    Option String × World :=
  if isEnded w gid then
    (some "Cannot add a user to an instance that has ended.", w)
  else
    (none,
      { w with
        userGroups := setAssoc w.userGroups uid gid,
        experiments := setStartTimeIfNull (addToSetUsers w.experiments gid uid) gid now,
        userStates := setAssoc w.userStates uid "experiment",
        assignments := joinInstance w.assignments asstId gid })

/-- Embedding of `Instance.getDuration`: `(endTime || now) - startTime`, where
a null `startTime` coerces to 0 as in JavaScript date arithmetic and a missing
record is the thrown property access (`none`). -/
def getDuration (w : World) (gid : String) (now : Nat) : Option Int :=
  (lookupAssoc w.experiments gid).map (fun rec =>
    ((rec.endTime.getD now : Nat) : Int) - ((rec.startTime.getD 0 : Nat) : Int))

/-! ### Treatment resolution -/

/-- JavaScript `_.extend(tgt, src)`: every binding of `src` is written into
`tgt` in order, overriding an existing binding of the same key in place. -/
def extendObj (tgt src : List (String × Nat)) : List (String × Nat) :=
  src.foldl (fun acc p => setAssoc acc p.1 p.2) tgt

/-- Modelled from the spec: `TurkServer._mergeTreatments` is not under src/
(only its call site in `Instance.treatment` is); per the spec it merges the
given treatments' params in the order the cursor yields them, "later entries
override earlier entries on key conflict", i.e. repeated object extension
starting from an empty object. -/
def mergeTreatments (ts : List Treatment) : List (String × Nat) :=
  ts.foldl (fun acc t => extendObj acc t.params) []

/-- Embedding of `Instance.treatment()`: resolves the instance record and
merges the Treatments whose names occur in the record's `treatments` list.
The `Treatments.find({name: {$in: ...}})` cursor carries no sort, so it yields
the matching documents in collection storage order, not in the order of the
instance's name list. -/
def treatmentOf (w : World) (gid : String) : Option (List (String × Nat)) :=
  (lookupAssoc w.experiments gid).map (fun rec =>
    mergeTreatments (w.treatmentsCol.filter (fun t => decide (t.name ∈ rec.treatments))))

/-- The merge order asserted by the specification sentence under check: merge
the named Treatments in the order of the instance's `treatments` list, later
list entries overriding earlier ones.  Stated only for comparison with
`treatmentOf`. -/
def mergeTreatmentsListOrder (col : List Treatment) (names : List String) :
    List (String × Nat) :=
  mergeTreatments (names.filterMap (fun n => col.find? (fun t => decide (t.name = n))))

/-- Concatenation of the params of a list of treatments, in order; used to
state where each key's resolved value comes from. -/
def catParams (ts : List Treatment) : List (String × Nat) :=
  ts.foldr (fun t acc => t.params ++ acc) []

/-! ### Teardown -/

/-- Embedding of `Instance.sendUserToLobby(userId)`: clears the user's group
mapping; then, if the user has a current assignment record, records the leave
on it and admits the user to the batch lobby with worker state "lobby"
(`Assignment.getCurrentUserAssignment` and `Lobby.addAssignment` are not under
src/ and are modelled from the spec: locate the user's current Assignment,
no-op if none, record the leave, add the Assignment to the owning Batch's
Lobby). -/
def sendUserToLobby (w : World) (gid uid : String) : World :=
  let w1 := { w with userGroups := removeAssoc w.userGroups uid }
  match w1.assignments.find? (fun a => decide (a.userId = uid)) with
  | none => w1
  | some _ =>
    { w1 with
      assignments := leaveInstance w1.assignments uid gid,
      lobby := w1.lobby ++ [uid],
      userStates := setAssoc w1.userStates uid "lobby" }

/-- Embedding of `Instance.teardown(returnToLobby)`: captures the single
timestamp `now`, emits the "teardown" log event carrying it, sets the
record's `endTime` to the same value, and — only when `returnToLobby` — routes
every current member through `sendUserToLobby`. -/
def teardown (w : World) (gid : String) (now : Nat) (returnToLobby : Bool) : World :=
  let w1 := { w with logs := w.logs ++ [LogEntry.mk gid "teardown" now] }
  let w2 := { w1 with experiments := setEndTime w1.experiments gid now }
  if returnToLobby then
    match lookupAssoc w2.experiments gid with
    | none => w2
    | some rec => rec.users.foldl (fun acc uid => sendUserToLobby acc gid uid) w2
  else w2

/-- Left-biased choice on options, used to state association-list lookup
decompositions. -/
def firstSome {α : Type} : Option α → Option α → Option α
  | some v, _ => some v
  | none, b => b

/-! ### The legacy sequential and round-robin assigners

The coffee file defines `TurkServer.assignUserSequential` and
`TurkServer.assignUserRoundRobin` over the `Experiments`, `Grouping` and
`Batches` collections.  Their callee `TurkServer.Experiment`
(`create` / `setup` / `addUser`, also written `TurkServer.experiment.addUser`
at the sequential assigner's reuse site) is not under src/, so those three
operations are modelled from the spec. -/

/-- The `Grouping.find({groupId: gid}).count()` membership count: the number of
user-to-group mappings pointing at the instance. -/
def groupCount (g : List (String × String)) (gid : String) : Nat :=
  (g.filter (fun p => decide (p.2 = gid))).length

/-- Modelled from the spec: `TurkServer.Experiment.addUser(gid, uid)` is not
under src/; per the spec adding a user to an instance "registers the user into
the group-scope mapping, adds the user to Instance membership (set
semantics)". -/
def addUser (w : World) (gid uid : String) : World :=
  { w with
    userGroups := setAssoc w.userGroups uid gid,
    experiments := addToSetUsers w.experiments gid uid }

/-- Modelled from the spec: `TurkServer.Experiment.create(treatmentId,
{assignable: true})` is not under src/; per the spec it "creates a new
assignable Instance", i.e. appends a fresh assignable record to the
collection. -/
def createExperiment (w : World) (gid : String) : World :=
  { w with experiments := w.experiments ++ [(gid, { assignable := true })] }

/-- Modelled from the spec: `TurkServer.Experiment.setup(newId, ...)` is not
under src/; per the spec initialization runs the registered handlers inside
the group scope and "emits an initialized log event" (timestamp abstracted as
0 here, as no claim depends on it). -/
def setupExperiment (w : World) (gid : String) : World :=
  { w with logs := w.logs ++ [LogEntry.mk gid "initialized" 0] }

/-- One iteration of the sequential assigner's `forEach` over the assignable
instances: the `assignedToExisting` flag short-circuits the body, and an
instance whose current membership count is below the batch's `groupVal`
receives the user. -/
def seqStep (uid : String) (gv : Nat) (acc : Bool × World) (e : String × ExpRec) :
    Bool × World :=
  if acc.1 then acc
  else if groupCount acc.2.userGroups e.1 < gv then (true, addUser acc.2 e.1 uid)
  else acc

/-- Meteor semantics of `Treatments.findOne(treatmentId)` as the sequential
assigner calls it with `treatmentId = undefined`: a falsy selector is
rewritten to `{_id: Random.id()}` — a fresh, never-stored id — so the lookup
matches no document whatever the collection holds. -/
def findOneFalsySelector (_col : List Treatment) : Option Treatment := none

/-- Embedding of the body of `TurkServer.assignUserSequential` once the active
batch's `groupVal` is in hand: scan the instances flagged assignable in stored
order with the short-circuiting flag.  If none received the user, the code
creates a fresh assignable instance (`freshId`) and then evaluates
`Treatments.findOne(treatmentId).name` with `treatmentId = undefined` to build
the argument of `Experiment.setup`; the falsy-selector lookup yields no
document, so the `.name` access throws a TypeError there and neither `setup`
nor `Experiment.addUser` runs.  The pair carries the thrown error message (if
any) with the store state at that point. -/
def assignUserSequentialCore (w : World) (uid : String) (gv : Nat) (freshId : String) :
    Option String × World :=
  let r := (w.experiments.filter (fun e => e.2.assignable)).foldl (seqStep uid gv) (false, w)
  if r.1 then (none, r.2)
  else
    let wc := createExperiment r.2 freshId
    match findOneFalsySelector wc.treatmentsCol with
    | none => (some "TypeError", wc)
    | some _ => (none, addUser (setupExperiment wc freshId) freshId uid)

/-- Embedding of `TurkServer.assignUserSequential(userId)`: reads the active
batch (crashing — outer `none` — when there is none, as `activeBatch.groupVal`
would throw) and runs the scan with its `groupVal`. -/
def assignUserSequential (w : World) (uid freshId : String) :
    Option (Option String × World) :=
  (w.batches.find? (fun b => b.active)).map (fun b =>
    assignUserSequentialCore w uid b.groupVal freshId)

/-- Underscore's `_.min` over the fetched experiments by current membership
count: the first element attaining the minimum, `none` on an empty list (where
the JavaScript code would produce `Infinity` and crash on the member
access). -/
def minByCount (w : World) : List (String × ExpRec) → Option (String × ExpRec)
  | [] => none
  | e :: rest =>
    match minByCount w rest with
    | none => some e
    | some m =>
      if groupCount w.userGroups m.1 < groupCount w.userGroups e.1 then some m else some e

/-- Embedding of `TurkServer.assignUserRoundRobin(userId)`: among the active
batch's fixed experiment set, add the user to the instance with minimum
current membership; `none` models the crash when there is no active batch or
no experiment. -/
def assignUserRoundRobin (w : World) (uid : String) : Option World :=
  (w.batches.find? (fun b => b.active)).bind (fun b =>
    (minByCount w (w.experiments.filter (fun e => decide (e.1 ∈ b.experimentIds)))).map
      (fun e => addUser w e.1 uid))

/-! ### The connection handler -/

/-- Whether an assignment record carries exactly the connecting document's
hitId, assignmentId and workerId (the upsert selector of
`TurkServer.handleConnection`). -/
def tripleMatch (doc : ConnDoc) (a : AsstRec) : Bool :=
  decide (a.hitId = doc.hitId ∧ a.assignmentId = doc.assignmentId ∧
    a.workerId = doc.workerId)

/-- The first update of `handleConnection`: every record sharing the document's
hitId and assignmentId but carrying a different workerId is set to status
RETURNED (`{multi: true}`). -/
def markReturned (as : List AsstRec) (doc : ConnDoc) : List AsstRec :=
  as.map (fun a =>
    if a.hitId = doc.hitId ∧ a.assignmentId = doc.assignmentId ∧
        a.workerId ≠ doc.workerId then
      { a with status := "RETURNED" }
    else a)

/-- The second update of `handleConnection`: upsert on the full triple — the
first matching record has its status set to ASSIGNED, and when none matches a
new record built from the selector and the `$set` is inserted. -/
def upsertAssigned : List AsstRec → ConnDoc → List AsstRec
  | [], doc =>
    [{ hitId := doc.hitId, assignmentId := doc.assignmentId,
       workerId := doc.workerId, status := "ASSIGNED" }]
  | a :: rest, doc =>
    if tripleMatch doc a then { a with status := "ASSIGNED" } :: rest
    else a :: upsertAssigned rest doc

/-- Number of assignment records matching the document's full triple. -/
def countTriple (as : List AsstRec) (doc : ConnDoc) : Nat :=
  (as.filter (tripleMatch doc)).length

/-- Embedding of `TurkServer.handleConnection(doc)`: record the two assignment
status updates, then — unless the connecting user already belongs to a group —
fall through to the active batch's admission mechanism (lobby,
round-robin, or sequential).  The pair carries the thrown error message (if
any) together with the store state at that point; `freshId` is the id a newly
created sequential experiment would receive. -/
def handleConnection (w : World) (doc : ConnDoc) (freshId : String) :
    Option String × World :=
  let w2 : World :=
    { w with assignments := upsertAssigned (markReturned w.assignments doc) doc }
  if (lookupAssoc w2.userGroups doc.userId).isSome then (none, w2)
  else
    match w2.batches.find? (fun b => b.active) with
    | none => (some "No active batch configured on server", w2)
    | some b =>
      if b.grouping = "groupSize" ∧ b.lobby then
        (none, { w2 with lobby := w2.lobby ++ [doc.userId] })
      else if b.grouping = "groupCount" then
        match assignUserRoundRobin w2 doc.userId with
        | some w3 => (none, w3)
        | none => (some "TypeError", w2)
      else
        match assignUserSequential w2 doc.userId freshId with
        | some r => r
        | none => (some "TypeError", w2)

/-! ### Concrete witness fixtures -/

/-- Concrete world for the C2 witness: one ended instance with one member. -/
def endedWorld : World :=
  { experiments := [("g1", { users := ["u0"], startTime := some 3, endTime := some 9 })],
    assignments := [{ asstId := "a0", userId := "u0" }],
    userGroups := [("u0", "g1")],
    userStates := [("u0", "experiment")] }

/-- Concrete world for the C4 witness: a fresh open instance. -/
def freshWorld : World :=
  { experiments := [("g1", { users := [] })],
    assignments := [{ asstId := "a1", userId := "u1" }] }

/-- Concrete world for the C6 witness: one ended instance. -/
def doneWorld : World :=
  { experiments := [("g1", { startTime := some 4, endTime := some 10 })] }

/-- Concrete world for the C3 failing input: the only assignable instance is
already full for the active batch's `groupVal`, so the sequential assigner
takes the creation branch; the Treatments collection is even non-empty. -/
def seqFullWorld : World :=
  { experiments := [("e1", { assignable := true, users := ["x1"] })],
    userGroups := [("x1", "e1")],
    treatmentsCol := [{ name := "tr", params := [("p", 1)] }],
    batches := [{ active := true, groupVal := 1 }] }

/-- Concrete world for the C5 theorems: the instance lists its treatments as
["beta", "alpha"] while the Treatments collection stores alpha before beta,
and the two treatments bind the same key to different values. -/
def treatWorld : World :=
  { experiments := [("g1", { treatments := ["beta", "alpha"] })],
    treatmentsCol := [{ name := "alpha", params := [("k", 1)] },
                      { name := "beta", params := [("k", 2)] }] }

/-- Concrete world for the C9/C10 witnesses: the connecting user `uNew` is
already mapped to a group, a stale record of another worker on the same HIT
and assignment is still ASSIGNED, and no batch is configured at all. -/
def connWorld : World :=
  { assignments :=
      [{ asstId := "a1", hitId := "h1", assignmentId := "s1", workerId := "wOld",
         userId := "uOld", status := "ASSIGNED" },
       { asstId := "a2", hitId := "h1", assignmentId := "s1", workerId := "wNew",
         userId := "uNew", status := "" }],
    userGroups := [("uNew", "g1")] }

/-- The connection document of the C9/C10 witnesses. -/
def connDoc : ConnDoc :=
  { userId := "uNew", hitId := "h1", assignmentId := "s1", workerId := "wNew" }

end TurkServer

namespace TurkServer

/-- C1: For every groupId, after the first successful creation of its Instance,
every later call to `Instance.getInstance(groupId)` returns the same object
identity as the first, including when two calls race on first access to a
not-yet-seen groupId (two simultaneous first calls must yield one shared
object, never two distinct ones and never an error).  The code violates the
racing half: on an empty registry, with the group record present, when a
concurrent fiber registers the Instance (token 7) during the store read, the
call throws "Instance already exists; use getInstance" instead of returning
the shared object, because the double-checked guard's operator precedence makes
its condition always falsy and control falls through to the throwing
constructor.  This evaluates the embedded code at that failing input. -/
theorem getInstance_race_throws :
    getInstance { reg := [], fresh := 0 } ["g1"] "g1" (some 7) =
      .error "Instance already exists; use getInstance" := by
  rfl

/-- C8 counterexample: the claim "for every groupId whose backing group record
does not exist in the store, getInstance fails with NotFound" is false on the
code: when the registry already caches an Instance for the group id (token 5)
and the backing record has since been removed from the store, `getInstance`
returns the cached object without consulting the store at all. -/
theorem getInstance_cached_ignores_missing_record :
    getInstance { reg := [("g1", 5)], fresh := 6 } [] "g1" none =
      .ok (5, { reg := [("g1", 5)], fresh := 6 }) := by
  rfl

/-- C8 amended: when no Instance is cached in the in-memory registry for the
group id and the backing group record does not exist in the store, every
`getInstance` call fails with the NotFound error, whatever concurrent
registrations occur. -/
theorem getInstance_uncached_missing_record_fails (s : InstState) (exps : List String)
    (gid : String) (raceWrite : Option Nat)
    (h1 : lookupAssoc s.reg gid = none) (h2 : gid ∉ exps) :
    getInstance s exps gid raceWrite = .error ("Instance does not exist: " ++ gid) := by
  simp [getInstance, h1, h2]

/-- Witness for the amended C8 theorem at a concrete input. -/
theorem getInstance_uncached_missing_record_fails_witness :
    getInstance { reg := [], fresh := 0 } [] "g1" none =
      .error ("Instance does not exist: " ++ "g1") :=
  getInstance_uncached_missing_record_fails { reg := [], fresh := 0 } [] "g1" none rfl
    (by decide)

/-- Looking up the updated key after `addToSetUsers` yields the stored record
with the user added to its membership set. -/
theorem lookup_addToSetUsers (m : List (String × ExpRec)) (gid uid : String) :
    lookupAssoc (addToSetUsers m gid uid) gid =
      (lookupAssoc m gid).map (fun r =>
        { r with users := if uid ∈ r.users then r.users else r.users ++ [uid] }) := by
  induction m with
  | nil => rfl
  | cons p rest ih =>
    by_cases hk : p.1 = gid
    · simp [addToSetUsers, lookupAssoc, hk]
    · simpa [addToSetUsers, lookupAssoc, hk] using ih

/-- Looking up the updated key after `setStartTimeIfNull` yields the stored
record with its start time filled in exactly when it was previously unset. -/
theorem lookup_setStartTimeIfNull (m : List (String × ExpRec)) (gid : String) (now : Nat) :
    lookupAssoc (setStartTimeIfNull m gid now) gid =
      (lookupAssoc m gid).map (fun r =>
        if r.startTime = none then { r with startTime := some now } else r) := by
  induction m with
  | nil => rfl
  | cons p rest ih =>
    by_cases hk : p.1 = gid
    · by_cases hs : p.2.startTime = none
      · simp [setStartTimeIfNull, lookupAssoc, hk, hs]
      · simp [setStartTimeIfNull, lookupAssoc, hk, hs]
    · simpa [setStartTimeIfNull, lookupAssoc, hk] using ih

/-- C2: For every Instance whose endTime is set (`isEnded()` is true),
`addAssignment(asst)` always fails with the StateError and the whole world —
the Instance's membership set, the user's group-scope mapping, the worker
state, and the Assignment's instance history — is exactly the pre-call state:
the ended check runs before the first mutation. -/
theorem addAssignment_ended_fails (w : World) (gid asstId uid : String) (now t : Nat)
    (rec : ExpRec) (h : lookupAssoc w.experiments gid = some rec)
    (he : rec.endTime = some t) :
    addAssignment w gid asstId uid now =
      (some "Cannot add a user to an instance that has ended.", w) := by
  have hend : isEnded w gid = true := by simp [isEnded, h, he]
  simp [addAssignment, hend]


/-- Witness for the C2 theorem at a concrete input. -/
theorem addAssignment_ended_fails_witness :
    addAssignment endedWorld "g1" "a1" "u1" 12 =
      (some "Cannot add a user to an instance that has ended.", endedWorld) :=
  addAssignment_ended_fails endedWorld "g1" "a1" "u1" 12 9
    { users := ["u0"], startTime := some 3, endTime := some 9 } rfl rfl

/-- C4: For every Instance, `startTime` is set exactly once: a successful
`addAssignment` on a record with no start time (the call that adds the first
member) stamps it with the call's timestamp, while a successful call on a
record whose start time is already set leaves it unchanged — the resulting
start time is always `rec.startTime.getD now`. -/
theorem addAssignment_startTime_once (w : World) (gid asstId uid : String) (now : Nat)
    (rec : ExpRec) (h : lookupAssoc w.experiments gid = some rec)
    (he : rec.endTime = none) :
    (lookupAssoc (addAssignment w gid asstId uid now).2.experiments gid).map
        ExpRec.startTime =
      some (some (rec.startTime.getD now)) := by
  have hend : isEnded w gid = false := by simp [isEnded, h, he]
  simp only [addAssignment, hend, Bool.false_eq_true, if_false]
  rw [lookup_setStartTimeIfNull, lookup_addToSetUsers, h]
  cases hst : rec.startTime <;> simp [hst]


/-- Witness for the C4 theorem at a concrete input: the first join stamps the
start time with the call's timestamp. -/
theorem addAssignment_startTime_once_witness :
    (lookupAssoc (addAssignment freshWorld "g1" "a1" "u1" 7).2.experiments "g1").map
        ExpRec.startTime =
      some (some ((Option.none).getD 7)) :=
  addAssignment_startTime_once freshWorld "g1" "a1" "u1" 7 { users := [] } rfl rfl

/-- C6: For every Instance with `startTime` set, `getDuration()` returns
`(endTime if set, otherwise now) - startTime`; in particular on an ended
Instance the value is identical for any two observation times. -/
theorem getDuration_spec (w : World) (gid : String) (rec : ExpRec) (s : Nat)
    (h : lookupAssoc w.experiments gid = some rec) (hs : rec.startTime = some s) :
    (∀ now : Nat, getDuration w gid now = some ((rec.endTime.getD now : Int) - (s : Int)))
    ∧ ∀ e : Nat, rec.endTime = some e →
        ∀ n1 n2 : Nat, getDuration w gid n1 = getDuration w gid n2 := by
  constructor
  · intro now
    simp [getDuration, h, hs]
  · intro e he n1 n2
    simp [getDuration, h, hs, he]


/-- Witness for the C6 theorem at a concrete input: the duration of the ended
instance is `endTime - startTime` at one time and agrees across two different
observation times. -/
theorem getDuration_spec_witness :
    getDuration doneWorld "g1" 100 =
      some (((Option.some 10).getD 100 : Int) - ((4 : Nat) : Int))
    ∧ getDuration doneWorld "g1" 100 = getDuration doneWorld "g1" 5000 := by
  have h := getDuration_spec doneWorld "g1" { startTime := some 4, endTime := some 10 } 4
    rfl rfl
  exact ⟨h.1 100, h.2 10 rfl 100 5000⟩

/-- A single `sendUserToLobby` call never touches the log or the experiment
records. -/
theorem sendUserToLobby_frame (w : World) (gid uid : String) :
    (sendUserToLobby w gid uid).logs = w.logs ∧
    (sendUserToLobby w gid uid).experiments = w.experiments := by
  simp only [sendUserToLobby]
  split <;> exact ⟨rfl, rfl⟩

/-- Routing any list of members to the lobby never touches the log or the
experiment records. -/
theorem sendUserToLobby_foldl_frame (l : List String) (gid : String) (w : World) :
    ((l.foldl (fun acc uid => sendUserToLobby acc gid uid) w).logs = w.logs) ∧
    ((l.foldl (fun acc uid => sendUserToLobby acc gid uid) w).experiments =
      w.experiments) := by
  induction l generalizing w with
  | nil => exact ⟨rfl, rfl⟩
  | cons u rest ih =>
    rw [List.foldl_cons]
    have hs := sendUserToLobby_frame w gid u
    have hr := ih (sendUserToLobby w gid u)
    exact ⟨hr.1.trans hs.1, hr.2.trans hs.2⟩

/-- Looking up the updated key after `setEndTime` yields the stored record
with its end time set. -/
theorem lookup_setEndTime (m : List (String × ExpRec)) (gid : String) (now : Nat) :
    lookupAssoc (setEndTime m gid now) gid =
      (lookupAssoc m gid).map (fun r => { r with endTime := some now }) := by
  induction m with
  | nil => rfl
  | cons p rest ih =>
    by_cases hk : p.1 = gid
    · simp [setEndTime, lookupAssoc, hk]
    · simpa [setEndTime, lookupAssoc, hk] using ih

/-- C7: Every call to `teardown` — with either value of `returnToLobby` —
captures one timestamp and uses that same value both for the emitted
"teardown" log event and for the `endTime` it stores on the record; and when
called with `returnToLobby = false` it stops after setting `endTime`: the
result is exactly the pre-state with the log entry appended and the end time
written, so no group-mapping clears, no Assignment leave records and no lobby
routing happen on that path. -/
theorem teardown_single_timestamp (w : World) (gid : String) (now : Nat)
    (returnToLobby : Bool) :
    (teardown w gid now returnToLobby).logs =
      w.logs ++ [LogEntry.mk gid "teardown" now]
    ∧ (teardown w gid now returnToLobby).experiments = setEndTime w.experiments gid now
    ∧ (lookupAssoc (teardown w gid now returnToLobby).experiments gid).map ExpRec.endTime
        = (lookupAssoc w.experiments gid).map (fun _ => some now)
    ∧ teardown w gid now false =
        { w with
          logs := w.logs ++ [LogEntry.mk gid "teardown" now],
          experiments := setEndTime w.experiments gid now } := by
  have hfr : (teardown w gid now returnToLobby).logs =
        w.logs ++ [LogEntry.mk gid "teardown" now]
      ∧ (teardown w gid now returnToLobby).experiments =
        setEndTime w.experiments gid now := by
    cases returnToLobby with
    | false => exact ⟨rfl, rfl⟩
    | true =>
      simp only [teardown]
      cases hl : lookupAssoc (setEndTime w.experiments gid now) gid with
      | none => exact ⟨rfl, rfl⟩
      | some rec => exact sendUserToLobby_foldl_frame rec.users gid _
  refine ⟨hfr.1, hfr.2, ?_, rfl⟩
  rw [hfr.2, lookup_setEndTime]
  cases lookupAssoc w.experiments gid <;> rfl

/-- C3: the claim that the sequential assigner, when no stored assignable
Instance qualifies, creates a new assignable Instance and adds the
participant to it states the spec's intent (the source's own TODO admits the
treatment lookup is unfinished), but the code crashes first.  At this input
the scan finds the only assignable instance full, a fresh assignable record
is created, and then evaluating `Treatments.findOne(treatmentId).name` with
`treatmentId = undefined` throws a TypeError before `Experiment.setup` and
`Experiment.addUser` can run: the call errors, the new instance's membership
stays empty, and the participant is mapped to no group. -/
theorem assignUserSequential_create_throws :
    assignUserSequential seqFullWorld "u9" "gN" =
      some (some "TypeError", createExperiment seqFullWorld "gN")
    ∧ (lookupAssoc (createExperiment seqFullWorld "gN").experiments "gN").map ExpRec.users
        = some []
    ∧ lookupAssoc (createExperiment seqFullWorld "gN").userGroups "u9" = none := by
  decide

/-- C10: when the connecting user of `handleConnection(doc)` already has a
userId-to-groupId mapping, the call performs no lobby admission and invokes no
assignment policy: it returns right after the two assignment status updates,
leaving lobby membership, all instance memberships, the group mappings, the
worker states, the logs and the batches unchanged — and since the statement
has no hypothesis about `w.batches`, the path needs no active batch. -/
theorem handleConnection_in_group_frame (w : World) (doc : ConnDoc) (freshId : String)
    (h : (lookupAssoc w.userGroups doc.userId).isSome = true) :
    handleConnection w doc freshId =
      (none, { w with assignments := upsertAssigned (markReturned w.assignments doc) doc }) := by
  simp [handleConnection, h]

/-- Witness for the C10 theorem at a concrete input whose batch collection is
empty: the call still succeeds and only the assignment statuses change. -/
theorem handleConnection_in_group_frame_witness :
    handleConnection connWorld connDoc "f1" =
      (none, { connWorld with
        assignments := upsertAssigned (markReturned connWorld.assignments connDoc) connDoc }) :=
  handleConnection_in_group_frame connWorld connDoc "f1" rfl

/-- The sequential scan never touches the assignment records. -/
theorem seqStep_foldl_assignments (uid : String) (gv : Nat) (l : List (String × ExpRec))
    (p : Bool × World) :
    (l.foldl (seqStep uid gv) p).2.assignments = p.2.assignments := by
  induction l generalizing p with
  | nil => rfl
  | cons e rest ih =>
    rw [List.foldl_cons, ih]
    unfold seqStep
    split
    · rfl
    · split <;> rfl

/-- The whole sequential assigner — whether it assigns, or creates and then
throws — never touches the assignment records. -/
theorem assignUserSequentialCore_assignments (w : World) (uid : String) (gv : Nat)
    (freshId : String) :
    (assignUserSequentialCore w uid gv freshId).2.assignments = w.assignments := by
  have h := seqStep_foldl_assignments uid gv (w.experiments.filter (fun e => e.2.assignable))
    (false, w)
  simp only [assignUserSequentialCore]
  split
  · exact h
  · exact h

/-- An `assignUserSequential` run with an active batch — whatever its outcome —
never touches the assignment records. -/
theorem assignUserSequential_assignments (w : World) (uid freshId : String)
    (r : Option String × World)
    (h : assignUserSequential w uid freshId = some r) :
    r.2.assignments = w.assignments := by
  unfold assignUserSequential at h
  cases hb : w.batches.find? (fun b => b.active) with
  | none => rw [hb] at h; simp at h
  | some b =>
    rw [hb] at h
    simp only [Option.map_some', Option.some.injEq] at h
    rw [← h]
    exact assignUserSequentialCore_assignments w uid b.groupVal freshId

/-- A successful `assignUserRoundRobin` run never touches the assignment
records. -/
theorem assignUserRoundRobin_assignments (w : World) (uid : String) (w' : World)
    (h : assignUserRoundRobin w uid = some w') :
    w'.assignments = w.assignments := by
  unfold assignUserRoundRobin at h
  cases hb : w.batches.find? (fun b => b.active) with
  | none => rw [hb] at h; simp at h
  | some b =>
    rw [hb] at h
    simp only [Option.some_bind] at h
    cases hm : minByCount w (w.experiments.filter (fun e => decide (e.1 ∈ b.experimentIds))) with
    | none => rw [hm] at h; simp at h
    | some e =>
      rw [hm] at h
      simp only [Option.map_some', Option.some.injEq] at h
      rw [← h]
      rfl

/-- Whatever branch `handleConnection` takes — early return, missing active
batch, lobby admission, round-robin or sequential assignment, or a crash in
those — the assignment collection of the final state is exactly the result of
the two status updates. -/
theorem handleConnection_assignments_eq (w : World) (doc : ConnDoc) (freshId : String) :
    (handleConnection w doc freshId).2.assignments =
      upsertAssigned (markReturned w.assignments doc) doc := by
  unfold handleConnection
  by_cases h1 : (lookupAssoc w.userGroups doc.userId).isSome = true
  · simp [h1]
  · simp only [h1, if_false]
    cases hb : w.batches.find? (fun b => b.active) with
    | none => simp [hb]
    | some b =>
      simp only [hb]
      by_cases h2 : b.grouping = "groupSize" ∧ b.lobby = true
      · simp [h2]
      · simp only [h2, if_false]
        by_cases h3 : b.grouping = "groupCount"
        · simp only [h3, if_true, if_pos rfl]
          cases hr : assignUserRoundRobin
              { w with assignments := upsertAssigned (markReturned w.assignments doc) doc }
              doc.userId with
          | none => simp [hr]
          | some w3 =>
            simp only [hr]
            exact assignUserRoundRobin_assignments _ doc.userId w3 hr
        · simp only [h3, if_false]
          cases hs : assignUserSequential
              { w with assignments := upsertAssigned (markReturned w.assignments doc) doc }
              doc.userId freshId with
          | none => simp [hs]
          | some r =>
            simp only [hs]
            exact assignUserSequential_assignments _ doc.userId freshId r hs

/-- An element of `markReturned` output that shares the document's hitId and
assignmentId but carries another workerId has status RETURNED. -/
theorem mem_markReturned_status (as : List AsstRec) (doc : ConnDoc) (a : AsstRec)
    (ha : a ∈ markReturned as doc) (h1 : a.hitId = doc.hitId)
    (h2 : a.assignmentId = doc.assignmentId) (h3 : a.workerId ≠ doc.workerId) :
    a.status = "RETURNED" := by
  unfold markReturned at ha
  obtain ⟨b, hb, heq⟩ := List.mem_map.mp ha
  by_cases hc : b.hitId = doc.hitId ∧ b.assignmentId = doc.assignmentId ∧
      b.workerId ≠ doc.workerId
  · rw [if_pos hc] at heq
    rw [← heq]
  · rw [if_neg hc] at heq
    subst heq
    exact absurd ⟨h1, h2, h3⟩ hc

/-- An element of `upsertAssigned` output whose workerId differs from the
document's was already in the input list, unchanged. -/
theorem mem_upsertAssigned (as : List AsstRec) (doc : ConnDoc) (a : AsstRec)
    (ha : a ∈ upsertAssigned as doc) (hw : a.workerId ≠ doc.workerId) : a ∈ as := by
  induction as with
  | nil =>
    simp only [upsertAssigned, List.mem_singleton] at ha
    subst ha
    exact absurd rfl hw
  | cons b rest ih =>
    unfold upsertAssigned at ha
    by_cases hc : tripleMatch doc b = true
    · rw [if_pos hc] at ha
      rcases List.mem_cons.mp ha with h | h
      · subst h
        have hbw : b.workerId = doc.workerId := by
          unfold tripleMatch at hc
          exact (of_decide_eq_true hc).2.2
        exact absurd hbw hw
      · exact List.mem_cons_of_mem b h
    · rw [if_neg hc] at ha
      rcases List.mem_cons.mp ha with h | h
      · rw [h]
        exact List.mem_cons_self b rest
      · exact List.mem_cons_of_mem b (ih h)

/-- After both status updates, any record carrying the document's hitId and
assignmentId with status ASSIGNED must be the connecting worker's. -/
theorem upsert_mark_assigned_worker (as : List AsstRec) (doc : ConnDoc) (a : AsstRec)
    (ha : a ∈ upsertAssigned (markReturned as doc) doc)
    (h1 : a.hitId = doc.hitId) (h2 : a.assignmentId = doc.assignmentId)
    (h3 : a.status = "ASSIGNED") : a.workerId = doc.workerId := by
  by_contra hw
  have hmem : a ∈ markReturned as doc := mem_upsertAssigned _ _ _ ha hw
  have hret : a.status = "RETURNED" := mem_markReturned_status _ _ _ hmem h1 h2 hw
  rw [h3] at hret
  exact absurd hret (by decide)

/-- The RETURNED update leaves the number of full-triple records unchanged:
it only rewrites statuses, and only of records with another workerId. -/
theorem countTriple_markReturned (as : List AsstRec) (doc : ConnDoc) :
    countTriple (markReturned as doc) doc = countTriple as doc := by
  induction as with
  | nil => rfl
  | cons a rest ih =>
    have hstep : tripleMatch doc
        (if a.hitId = doc.hitId ∧ a.assignmentId = doc.assignmentId ∧
            a.workerId ≠ doc.workerId then { a with status := "RETURNED" } else a) =
        tripleMatch doc a := by
      split <;> rfl
    simp only [countTriple, markReturned, List.map_cons, List.filter_cons, hstep] at ih ⊢
    by_cases h : tripleMatch doc a = true
    · simp [h, ih]
    · simp [h, ih]

/-- The upsert makes the number of full-triple records exactly one when there
was none, and leaves it unchanged otherwise. -/
theorem countTriple_upsertAssigned (as : List AsstRec) (doc : ConnDoc) :
    countTriple (upsertAssigned as doc) doc = max 1 (countTriple as doc) := by
  induction as with
  | nil =>
    simp [upsertAssigned, countTriple, tripleMatch, List.filter_cons]
  | cons a rest ih =>
    by_cases hc : tripleMatch doc a = true
    · have hA : tripleMatch doc { a with status := "ASSIGNED" } = true := hc
      simp only [upsertAssigned, if_pos hc, countTriple, List.filter_cons, hA, hc,
        if_true, List.length_cons] at ih ⊢
      omega
    · have h1 : upsertAssigned (a :: rest) doc = a :: upsertAssigned rest doc := by
        show (if tripleMatch doc a = true then { a with status := "ASSIGNED" } :: rest
          else a :: upsertAssigned rest doc) = a :: upsertAssigned rest doc
        rw [if_neg hc]
      rw [h1]
      unfold countTriple
      rw [List.filter_cons, if_neg hc, List.filter_cons, if_neg hc]
      exact ih

/-- Counting a filter against a pointwise (over members) weaker predicate. -/
theorem length_filter_le_of_mem_imp (p q : AsstRec → Bool) :
    ∀ l : List AsstRec, (∀ a ∈ l, p a = true → q a = true) →
      (l.filter p).length ≤ (l.filter q).length := by
  intro l
  induction l with
  | nil => intro _; simp
  | cons a rest ih =>
    intro h
    have hr := ih (fun x hx hpx => h x (List.mem_cons_of_mem a hx) hpx)
    by_cases hp : p a = true
    · have hq := h a (List.mem_cons_self a rest) hp
      rw [List.filter_cons, List.filter_cons, if_pos hp, if_pos hq, List.length_cons,
        List.length_cons]
      omega
    · by_cases hq : q a = true
      · rw [List.filter_cons, List.filter_cons, if_neg hp, if_pos hq, List.length_cons]
        omega
      · rw [List.filter_cons, List.filter_cons, if_neg hp, if_neg hq]
        omega

/-- C9: After any call to `handleConnection(doc)` — whichever branch it takes
and whether or not it throws afterwards — at most one assignment record with
the document's hitId and assignmentId has status ASSIGNED, and any such
record carries the connecting workerId; this holds whenever the pre-state has
at most one record with the full (hitId, assignmentId, workerId) triple, the
uniqueness the collection maintains by construction. -/
theorem handleConnection_unique_assigned (w : World) (doc : ConnDoc) (freshId : String)
    (hu : countTriple w.assignments doc ≤ 1) :
    (∀ a ∈ (handleConnection w doc freshId).2.assignments,
        a.hitId = doc.hitId → a.assignmentId = doc.assignmentId →
        a.status = "ASSIGNED" → a.workerId = doc.workerId)
    ∧ ((handleConnection w doc freshId).2.assignments.filter
        (fun a => decide (a.hitId = doc.hitId ∧ a.assignmentId = doc.assignmentId ∧
          a.status = "ASSIGNED"))).length ≤ 1 := by
  rw [handleConnection_assignments_eq]
  constructor
  · intro a ha h1 h2 h3
    exact upsert_mark_assigned_worker w.assignments doc a ha h1 h2 h3
  · have hcount : countTriple (upsertAssigned (markReturned w.assignments doc) doc) doc ≤ 1 := by
      rw [countTriple_upsertAssigned, countTriple_markReturned]
      omega
    refine le_trans (length_filter_le_of_mem_imp _ (tripleMatch doc) _ ?_) hcount
    intro a ha hp
    have hps := of_decide_eq_true hp
    have hw := upsert_mark_assigned_worker w.assignments doc a ha hps.1 hps.2.1 hps.2.2
    unfold tripleMatch
    exact decide_eq_true ⟨hps.1, hps.2.1, hw⟩

/-- Witness for the C9 theorem at a concrete input: the stale other-worker
record on the same HIT and assignment is returned, leaving exactly the
connecting worker's record ASSIGNED. -/
theorem handleConnection_unique_assigned_witness :
    (∀ a ∈ (handleConnection connWorld connDoc "f2").2.assignments,
        a.hitId = connDoc.hitId → a.assignmentId = connDoc.assignmentId →
        a.status = "ASSIGNED" → a.workerId = connDoc.workerId)
    ∧ ((handleConnection connWorld connDoc "f2").2.assignments.filter
        (fun a => decide (a.hitId = connDoc.hitId ∧ a.assignmentId = connDoc.assignmentId ∧
          a.status = "ASSIGNED"))).length ≤ 1 :=
  handleConnection_unique_assigned connWorld connDoc "f2" (by decide)

/-- Choosing against nothing yields the first option unchanged. -/
theorem firstSome_none {α : Type} (a : Option α) : firstSome a none = a := by
  cases a <;> rfl

/-- Lookup distributes over association-list concatenation, preferring the
left part. -/
theorem lookupAssoc_append {α : Type} (xs ys : List (String × α)) (k : String) :
    lookupAssoc (xs ++ ys) k = firstSome (lookupAssoc xs k) (lookupAssoc ys k) := by
  induction xs with
  | nil => rfl
  | cons p rest ih =>
    by_cases hk : p.1 = k
    · simp [lookupAssoc, hk, firstSome]
    · simp [lookupAssoc, hk, ih]

/-- Lookup after an in-place upsert: the written key reads the new value and
every other key is untouched. -/
theorem lookupAssoc_setAssoc {α : Type} (m : List (String × α)) (k0 k : String) (v : α) :
    lookupAssoc (setAssoc m k0 v) k = if k0 = k then some v else lookupAssoc m k := by
  induction m with
  | nil => simp [setAssoc, lookupAssoc]
  | cons p rest ih =>
    by_cases h0 : p.1 = k0
    · by_cases hk : k0 = k
      · simp [setAssoc, h0, lookupAssoc, hk]
      · simp [setAssoc, h0, lookupAssoc, hk]
    · by_cases hk : k0 = k
      · subst hk
        simp only [setAssoc, if_neg h0, lookupAssoc, if_neg h0, ih, if_pos rfl]
      · simp [setAssoc, h0, lookupAssoc, ih, hk]

/-- Lookup after JavaScript object extension: the extension source wins with
its last binding of the key, else the target answers. -/
theorem lookupAssoc_extendObj (a ps : List (String × Nat)) (k : String) :
    lookupAssoc (extendObj a ps) k =
      firstSome (lookupAssoc ps.reverse k) (lookupAssoc a k) := by
  induction ps generalizing a with
  | nil => rfl
  | cons p rest ih =>
    show lookupAssoc (extendObj (setAssoc a p.1 p.2) rest) k = _
    rw [ih, List.reverse_cons, lookupAssoc_append, lookupAssoc_setAssoc]
    cases lookupAssoc rest.reverse k <;> by_cases hk : p.1 = k <;>
      simp [firstSome, lookupAssoc, hk]

/-- Lookup in the treatment-merge fold: the key's value is its last binding in
the concatenated params of the folded treatments, else the accumulator
answers. -/
theorem lookupAssoc_mergeFoldl (ts : List Treatment) (a0 : List (String × Nat))
    (k : String) :
    lookupAssoc (ts.foldl (fun acc t => extendObj acc t.params) a0) k =
      firstSome (lookupAssoc (catParams ts).reverse k) (lookupAssoc a0 k) := by
  induction ts generalizing a0 with
  | nil => rfl
  | cons t rest ih =>
    show lookupAssoc (rest.foldl (fun acc t => extendObj acc t.params)
      (extendObj a0 t.params)) k = _
    rw [ih, lookupAssoc_extendObj]
    show _ = firstSome (lookupAssoc (t.params ++ catParams rest).reverse k)
      (lookupAssoc a0 k)
    rw [List.reverse_append, lookupAssoc_append]
    cases lookupAssoc (catParams rest).reverse k <;> simp [firstSome]

/-- Each key of a merged treatment object resolves to its last binding among
the merged treatments' params, in merge order. -/
theorem lookup_mergeTreatments (ts : List Treatment) (k : String) :
    lookupAssoc (mergeTreatments ts) k = lookupAssoc (catParams ts).reverse k := by
  have h := lookupAssoc_mergeFoldl ts [] k
  simp only [lookupAssoc] at h
  rw [firstSome_none] at h
  exact h

/-- C5 counterexample: the claim that `Instance.treatment()` merges the named
Treatments in the order of the instance's `treatments` list, with later list
entries overriding earlier, is false on the code: with the instance listing
["beta", "alpha"] while the collection stores alpha before beta, the code
resolves the shared key to beta's value (storage order, beta last), while the
claimed list-order merge resolves it to alpha's value. -/
theorem treatment_not_list_order :
    treatmentOf treatWorld "g1" = some [("k", 2)] ∧
    mergeTreatmentsListOrder treatWorld.treatmentsCol ["beta", "alpha"] = [("k", 1)] ∧
    some (mergeTreatmentsListOrder treatWorld.treatmentsCol ["beta", "alpha"]) ≠
      treatmentOf treatWorld "g1" := by
  decide

/-- C5 amended: for every Instance, `Instance.treatment()` returns the ordered
merge of its named Treatments in the order they are stored in the Treatments
collection (the order the unsorted `$in` query yields them), with a later
storage-order entry overriding an earlier one on key conflict: every key
resolves to its last binding among the named treatments' concatenated params
taken in storage order. -/
theorem treatment_last_binding_wins (w : World) (gid : String) (rec : ExpRec)
    (k : String) (h : lookupAssoc w.experiments gid = some rec) :
    (treatmentOf w gid).map (fun m => lookupAssoc m k) =
      some (lookupAssoc
        (catParams (w.treatmentsCol.filter
          (fun t => decide (t.name ∈ rec.treatments)))).reverse k) := by
  simp only [treatmentOf, h, Option.map_some']
  rw [lookup_mergeTreatments]

/-- Witness for the amended C5 theorem at a concrete input, evaluated: the
key resolves to the last storage-order binding. -/
theorem treatment_last_binding_wins_witness :
    (treatmentOf treatWorld "g1").map (fun m => lookupAssoc m "k") = some (some 2) := by
  rw [treatment_last_binding_wins treatWorld "g1" { treatments := ["beta", "alpha"] } "k"
    rfl]
  decide

end TurkServer
